import Mathlib

/-!
# Verification of the LinkedIn-automation-tool campaign engine and stealth generators

This file gives a shallow embedding, in Lean 4, of the parts of the Go
repository `LinkedIn-automation-tool` that the specification's testable
properties talk about:

* `connect.SendRequests` (src/connect/request.go) — the rate-limited,
  resumable campaign engine for connection requests, together with its
  persisted `ConnectionState`;
* `connect.findConnectButton` — the two-tier element locator for the
  Connect action;
* `stealth.RandomDelay` (src/stealth/timing.go) and the second
  `navigation.RandomDelay` (src/navigation/patterns.go) — the bounded
  delay generators;
* `stealth.MoveMouseHuman` (src/stealth/mouse.go) — the Bézier pointer
  path generator;
* `search.FindPeople` (src/navigation/patterns.go, package search) — the
  paginated people-discovery loop with its URL normalisation.

Effectful Go code is embedded as pure state-passing functions.  Randomness
(`math/rand` draws, `time.Now()`-based draws) is made explicit: every
random draw becomes a parameter of the Lean function, constrained exactly
as the Go library constrains it (e.g. `r.Intn n` is modelled as `u % n`
for an arbitrary draw `u : Nat`, which ranges over exactly `[0, n)`).
Wall-clock values (today's date, timestamps) are likewise parameters.
The browser page is modelled as a map from CSS selector strings to
optionally-found elements, mirroring the `page.Element(sel)` calls.
-/

namespace Connect

/-- Embeds `ConnectionState` from src/connect/request.go.  Go maps are
embedded as association lists (`attempted_profiles` stores only `true`
values in Go, so it is embedded as its key list). -/
structure ConnectionState where
  date : String
  requestsSentToday : Int
  attemptedProfiles : List String
  successfulSends : List (String × String)
  failedAttempts : List (String × String)
deriving Repr, DecidableEq

/-- Embeds `RequestConfig.MaxPerDay` handling; the other config fields
(notes, waits) do not influence the state transitions we verify. -/
def mapKeys (m : List (String × String)) : List String := m.map Prod.fst

/-- Go map assignment `m[k] = v` on an association list: overwrite the
value if the key is present, otherwise append the binding. -/
def setKey (m : List (String × String)) (k v : String) : List (String × String) :=
  if (mapKeys m).contains k then
    m.map (fun q => if q.1 == k then (k, v) else q)
  else m ++ [(k, v)]

/-- The observable outcome of a `SendRequests` run: the final in-memory
state, the last successfully persisted snapshot (`stored`), the three
counters the Go code logs, and the list of profiles for which the
per-profile step `sendConnectionRequest` was actually invoked, in order. -/
structure SendOutcome where
  state : ConnectionState
  stored : Option ConnectionState
  successCount : Nat
  skipCount : Nat
  errorCount : Nat
  stepTrace : List String
deriving Repr, DecidableEq

/-- Embeds the `for i, profileURL := range profiles` loop of
`SendRequests` (src/connect/request.go lines 90–159).

* `stepResult p` is the outcome of `sendConnectionRequest` for profile
  `p`: `none` for success, `some e` for an error message `e`;
* `ts` stands for the `time.Now().Format(time.RFC3339)` timestamp;
* `saveOk p` tells whether `saveConnectionState` succeeds after
  processing `p` (the Go code only logs a warning when it fails).

Iteration order: quota check (break), duplicate check (continue, which
also skips the save), invoke step, mark attempted regardless of outcome,
record failure or success, persist, recurse on the rest. -/
def sendLoop (maxPerDay : Int) (stepResult : String → Option String) (ts : String)
    (saveOk : String → Bool) : List String → SendOutcome → SendOutcome
  | [], o => o
  | p :: rest, o =>
    if o.state.requestsSentToday ≥ maxPerDay then o
    else if o.state.attemptedProfiles.contains p then
      sendLoop maxPerDay stepResult ts saveOk rest { o with skipCount := o.skipCount + 1 }
    else
      let res := stepResult p
      let s1 : ConnectionState :=
        { o.state with attemptedProfiles := o.state.attemptedProfiles ++ [p] }
      let s2 : ConnectionState :=
        match res with
        | some e => { s1 with failedAttempts := setKey s1.failedAttempts p e }
        | none =>
          { s1 with requestsSentToday := s1.requestsSentToday + 1,
                    successfulSends := setKey s1.successfulSends p ts }
      sendLoop maxPerDay stepResult ts saveOk rest
        { state := s2
          stored := if saveOk p then some s2 else o.stored
          successCount := o.successCount + (if res.isNone then 1 else 0)
          skipCount := o.skipCount
          errorCount := o.errorCount + (if res.isSome then 1 else 0)
          stepTrace := o.stepTrace ++ [p] }

/-- The error string returned when the daily limit is already reached at
entry (`fmt.Errorf("daily connection limit reached: %d/%d", …)`). -/
def limitMsg (sent maxPerDay : Int) : String :=
  "daily connection limit reached: " ++ toString sent ++ "/" ++ toString maxPerDay

/-- Embeds `SendRequests` (src/connect/request.go lines 41–170).

* an empty profile list returns immediately with nothing touched;
* the loaded state `s0` has its daily counter reset when its stored date
  differs from `today`;
* if the (possibly reset) counter already reached `maxPerDay`, the Go
  function returns the error `daily connection limit reached: X/N`
  without touching any target;
* otherwise the loop above runs and the function returns `nil` (here:
  `Except.ok` with the observable outcome).

`stored0` is the snapshot currently persisted in the state store. -/
def SendRequests (today ts : String) (maxPerDay : Int)
    (stepResult : String → Option String) (saveOk : String → Bool)
    (profiles : List String) (s0 : ConnectionState) (stored0 : Option ConnectionState) :
    Except String SendOutcome :=
  if profiles.isEmpty then
    .ok { state := s0, stored := stored0, successCount := 0, skipCount := 0,
          errorCount := 0, stepTrace := [] }
  else
    let s1 : ConnectionState :=
      if s0.date == today then s0 else { s0 with date := today, requestsSentToday := 0 }
    if s1.requestsSentToday ≥ maxPerDay then
      .error (limitMsg s1.requestsSentToday maxPerDay)
    else
      .ok (sendLoop maxPerDay stepResult ts saveOk profiles
        { state := s1, stored := stored0, successCount := 0, skipCount := 0,
          errorCount := 0, stepTrace := [] })

/-- A fresh state, as produced by `newConnectionState` for day `d`. -/
def newConnectionState (d : String) : ConnectionState :=
  { date := d, requestsSentToday := 0, attemptedProfiles := [],
    successfulSends := [], failedAttempts := [] }

/-- The success branch of one `SendRequests` loop iteration (lines
117–144 of src/connect/request.go, `err == nil` case), factored out of
`sendLoop` for reasoning: mark attempted, bump the counter, record the
send, persist if the save succeeds. -/
def procSuccess (o : SendOutcome) (p ts : String) (saveOk : String → Bool) : SendOutcome :=
  let s2 : ConnectionState :=
    { o.state with
        requestsSentToday := o.state.requestsSentToday + 1
        attemptedProfiles := o.state.attemptedProfiles ++ [p]
        successfulSends := setKey o.state.successfulSends p ts }
  { state := s2
    stored := if saveOk p then some s2 else o.stored
    successCount := o.successCount + 1
    skipCount := o.skipCount
    errorCount := o.errorCount
    stepTrace := o.stepTrace ++ [p] }

/-- The failure branch of one `SendRequests` loop iteration (lines
117–144, `err != nil` case): mark attempted, record the failure reason,
persist if the save succeeds. -/
def procFailure (o : SendOutcome) (p e : String) (saveOk : String → Bool) : SendOutcome :=
  let s2 : ConnectionState :=
    { o.state with
        attemptedProfiles := o.state.attemptedProfiles ++ [p]
        failedAttempts := setKey o.state.failedAttempts p e }
  { state := s2
    stored := if saveOk p then some s2 else o.stored
    successCount := o.successCount
    skipCount := o.skipCount
    errorCount := o.errorCount + 1
    stepTrace := o.stepTrace ++ [p] }

/-- Forgets the persisted snapshot of an outcome; two runs that agree
after `eraseStored` did the same work and differ at most in what reached
the state store. -/
def eraseStored (o : SendOutcome) : SendOutcome :=
  { o with stored := none }

/-! ## The element locator `findConnectButton` -/

/-- Checks whether `needle` occurs as a contiguous run of `hay`,
embedding Go's `strings.Contains` on the underlying character lists. -/
def leadMatch : List Char → List Char → Bool
  | [], _ => true
  | _ :: _, [] => false
  | a :: as, b :: bs => a == b && leadMatch as bs

/-- Substring search over character lists (helper for `strContains`). -/
def subMatch (needle : List Char) : List Char → Bool
  | [] => leadMatch needle []
  | b :: bs => leadMatch needle (b :: bs) || subMatch needle bs

/-- Embeds Go `strings.Contains hay needle`. -/
def strContains (hay needle : String) : Bool :=
  subMatch needle.toList hay.toList

/-- A DOM element handle, reduced to the two observations
`findConnectButton` makes: `btn.Text()` (`none` when the call errors) and
`btn.Attribute("aria-label")` (`none` when the call errors or the
attribute is absent). -/
structure Elem where
  text : Option String
  ariaLabel : Option String
deriving Repr, DecidableEq

/-- A page, reduced to what the locator consumes: for each CSS selector,
the element `page.Element(sel)` finds, or `none` on a timeout/miss. -/
def Page : Type := String → Option Elem

/-- The ordered Connect-button selector list of `findConnectButton`
(src/connect/request.go lines 285–300). -/
def connectSelectors : List String :=
  [ "button[aria-label*='Invite'][aria-label*='connect']"
  , "button[aria-label^='Invite']"
  , "button:has-text('Connect')"
  , "button.pvs-profile-actions__action:has-text('Connect')"
  , "button.artdeco-button--secondary:has-text('Connect')"
  , "button.pvs-profile-actions__action"
  , "button[aria-label*='Connect']" ]

/-- The semantic check of `findConnectButton`: the element's text, or
failing that its aria-label, contains "connect" case-insensitively. -/
def elemIsConnect (e : Elem) : Bool :=
  (match e.text with
   | some t => strContains t.toLower "connect"
   | none => false) ||
  (match e.ariaLabel with
   | some a => strContains a.toLower "connect"
   | none => false)

/-- First pass of `findConnectButton`: try each selector in order and
accept the first element passing the semantic check. -/
def firstConnect (page : Page) : List String → Option Elem
  | [] => none
  | sel :: rest =>
    match page sel with
    | none => firstConnect page rest
    | some e => if elemIsConnect e then some e else firstConnect page rest

/-- The ordered "Connect unavailable" indicator list of
`findConnectButton` (src/connect/request.go lines 325–333). -/
def unavailableReasons : List (String × String) :=
  [ ("button:has-text('Following')", "already following")
  , ("button:has-text('Pending')", "connection request already pending")
  , ("button:has-text('Message')", "already connected")
  , ("span:has-text('Connection')", "already connected") ]

/-- Second pass of `findConnectButton`: the first matching unavailable
indicator yields its reason. -/
def firstUnavailable (page : Page) : List (String × String) → Option String
  | [] => none
  | (sel, reason) :: rest =>
    match page sel with
    | some _ => some reason
    | none => firstUnavailable page rest

/-- The generic miss message of `findConnectButton`. -/
def notFoundMsg : String :=
  "connect button not found - may already be connected or profile restricted"

/-- Embeds `findConnectButton` (src/connect/request.go lines 282–342):
first the selector pass with the semantic check, then the unavailable
indicators (returning the distinct `connect unavailable: reason` error),
then the generic not-found error. -/
def findConnectButton (page : Page) : Except String Elem :=
  match firstConnect page connectSelectors with
  | some e => .ok e
  | none =>
    match firstUnavailable page unavailableReasons with
    | some reason => .error ("connect unavailable: " ++ reason)
    | none => .error notFoundMsg

/-- `sendConnectionRequest` wraps a locator failure as
`fmt.Errorf("find connect button: %w", err)` (line 209); this composes
the locator outcome into the step result the campaign loop classifies. -/
def stepOfLocator (page : Page) : Option String :=
  match findConnectButton page with
  | .ok _ => none
  | .error e => some ("find connect button: " ++ e)

end Connect

namespace Stealth

/-- The clamp `if minMs < 0 { minMs = 0 }` of `RandomDelay`
(src/stealth/timing.go line 13). -/
def clampMin (minMs : Int) : Int := if minMs < 0 then 0 else minMs

/-- The clamp `if maxMs < minMs { maxMs = minMs }` of `RandomDelay`
(src/stealth/timing.go line 16), applied after `clampMin`. -/
def clampMax (minMs maxMs : Int) : Int :=
  if maxMs < clampMin minMs then clampMin minMs else maxMs

/-- Embeds `stealth.RandomDelay` (src/stealth/timing.go lines 12–22).
The result is the returned number of milliseconds
(`time.Duration(n) * time.Millisecond` up to the unit).  The draw of
`r.Intn n`, which for `n > 0` is uniform on `[0, n)`, is modelled as
`u % n` for an arbitrary draw `u : Nat`; `r.Intn n` panics for `n ≤ 0`,
so the positivity of its argument is part of the verified contract. -/
def RandomDelay (u : Nat) (minMs maxMs : Int) : Int :=
  let m1 := clampMin minMs
  let m2 := clampMax minMs maxMs
  ((u % (m2 - m1 + 1).toNat : Nat) : Int) + m1

end Stealth

namespace Navigation

/-- Embeds the second `RandomDelay` helper
(src/navigation/patterns.go lines 153–162).  Same clamps as the stealth
one; the randomness source is `time.Now().UnixNano() % (maxMs-minMs+1)`,
modelled by an arbitrary non-negative draw `nano : Nat`.  A non-positive
modulus would make the Go `%` divide by zero (or return a negative
remainder), so positivity of `maxMs-minMs+1` after clamping is part of
the verified contract. -/
def RandomDelay (nano : Nat) (minMs maxMs : Int) : Int :=
  let m1 := Stealth.clampMin minMs
  let m2 := Stealth.clampMax minMs maxMs
  m1 + ((nano % (m2 - m1 + 1).toNat : Nat) : Int)

end Navigation

namespace Stealth

/-- The random draws `MoveMouseHuman` makes (src/stealth/mouse.go),
made explicit:
* `overshoots` — whether `r.Float64() < overshootChance` fired;
* `odx`, `ody` — the drawn `int(randRange(r, -8, 14))` overshoot offsets;
* `cp1x …  cp2y` — the drawn `randRange(r, -dist*0.1, dist*0.1)` control
  point offsets;
* `jx`, `jy` — the per-sample `randRange(r, -3, 3)` micro jitters. -/
structure MouseRand where
  overshoots : Bool
  odx : Int
  ody : Int
  cp1x : ℚ
  cp1y : ℚ
  cp2x : ℚ
  cp2y : ℚ
  jx : Nat → ℚ
  jy : Nat → ℚ

/-- Embeds `cubicBezier` (src/stealth/mouse.go lines 105–111) over ℚ. -/
def cubicBezier (p0 p1 p2 p3 t : ℚ) : ℚ :=
  (1 - t) * (1 - t) * (1 - t) * p0 +
    3 * (1 - t) * (1 - t) * t * p1 +
    3 * (1 - t) * t * t * p2 +
    t * t * t * p3

/-- The step count of `MoveMouseHuman` (lines 31–37):
`int(dist/8) + 20` clamped to `[25, 220]`.  For integer coordinates
`int(dist/8) = ⌊√(dx²+dy²)⌋ / 8` (floor division), embedded with
`Nat.sqrt`; float-rounding of `math.Hypot` can shift this by one only at
exact boundaries, which no verified property depends on. -/
def mouseSteps (dist2 : Nat) : Nat :=
  let s := Nat.sqrt dist2 / 8 + 20
  if s < 25 then 25 else if s > 220 then 220 else s

/-- Embeds `MoveMouseHuman` (src/stealth/mouse.go lines 19–83) as the
ordered list of pointer positions it emits (the `MoveAlong` samples
followed by the final `MoveTo`).

Control flow from the source: if the distance is below 2 px, a single
direct `MoveTo(to)` is emitted.  Otherwise the two control points are
computed from the *original* target, then — when the overshoot draw
fires — `toX`/`toY` are mutated by the drawn offsets, and both the
Bézier samples (line 55 uses the mutated `toX`,`toY` as the curve's
endpoint) and the final correcting `MoveTo` (line 82) use the mutated
target. -/
def MoveMouseHuman (rnd : MouseRand) (fromX fromY toX toY : Int) : List (ℚ × ℚ) :=
  let dx : Int := toX - fromX
  let dy : Int := toY - fromY
  if dx * dx + dy * dy < 4 then [((toX : ℚ), (toY : ℚ))]
  else
    let cp1x : ℚ := (fromX : ℚ) + (dx : ℚ) * (3 / 10) + rnd.cp1x
    let cp1y : ℚ := (fromY : ℚ) + (dy : ℚ) * (3 / 10) + rnd.cp1y
    let cp2x : ℚ := (fromX : ℚ) + (dx : ℚ) * (7 / 10) + rnd.cp2x
    let cp2y : ℚ := (fromY : ℚ) + (dy : ℚ) * (7 / 10) + rnd.cp2y
    let tX : Int := if rnd.overshoots then toX + rnd.odx else toX
    let tY : Int := if rnd.overshoots then toY + rnd.ody else toY
    let n := mouseSteps (dx * dx + dy * dy).toNat
    let samples := (List.range n).map (fun i =>
      let t : ℚ := ((i : Nat) + 1 : ℚ) / (n : ℚ)
      (cubicBezier (fromX : ℚ) cp1x cp2x (tX : ℚ) t + rnd.jx i,
       cubicBezier (fromY : ℚ) cp1y cp2y (tY : ℚ) t + rnd.jy i))
    samples ++ [((tX : ℚ), (tY : ℚ))]

end Stealth

namespace Search

open Connect (strContains)

/-- The fields of a parsed URL that `normalizeProfileURL` consumes. -/
structure URLParts where
  scheme : String
  host : String
  path : String
deriving Repr, DecidableEq

/-- Go `strings.Split` over characters: splits `hay` at every
occurrence of the non-empty separator `sep`.  The extra `fuel` argument
(instantiated with the length of `hay`) makes the recursion structural,
so the definition evaluates inside the kernel; each step consumes at
least one character, so the fuel never runs out on real calls. -/
def splitChars (sep : List Char) : Nat → List Char → List Char → List (List Char)
  | 0, hay, acc => [acc.reverse ++ hay]
  | fuel + 1, hay, acc =>
    match hay with
    | [] => [acc.reverse]
    | h :: t =>
      if Connect.leadMatch sep (h :: t) then
        acc.reverse :: splitChars sep fuel (List.drop sep.length (h :: t)) []
      else splitChars sep fuel t (h :: acc)

/-- Embeds Go `strings.Split s sep` (non-empty separator). -/
def splitStr (s sep : String) : List String :=
  (splitChars sep.toList s.toList.length s.toList []).map List.asString

/-- Embeds Go `strings.HasPrefix`. -/
def hasPrefixStr (s pre : String) : Bool := Connect.leadMatch pre.toList s.toList

/-- Embeds Go `strings.HasSuffix`. -/
def hasSuffixStr (s suf : String) : Bool :=
  Connect.leadMatch suf.toList.reverse s.toList.reverse

/-- Embeds Go `strings.TrimSuffix`: drops one trailing occurrence. -/
def trimSuffixStr (s suf : String) : String :=
  if hasSuffixStr s suf then
    (s.toList.take (s.toList.length - suf.toList.length)).asString
  else s

/-- Joins strings with a separator (Go `strings.Join`). -/
def joinWith (sep : String) : List String → String
  | [] => ""
  | [x] => x
  | x :: xs => x ++ sep ++ joinWith sep xs

/-- Strips a query (`?…`) and fragment (`#…`) tail from a string. -/
def stripQF (s : String) : String :=
  (splitStr ((splitStr s "?").headD "") "#").headD ""

/-- Modelled from the spec's "automation context capability" boundary:
`net/url.Parse` (Go standard library, not part of this repository)
restricted to the URL shapes `normalizeProfileURL` handles —
`scheme://host/path…` absolute URLs and scheme-less relative references.
Query and fragment are stripped eagerly because `normalizeProfileURL`
immediately clears `RawQuery`/`Fragment`; a space makes parsing fail as
a stand-in for `url.Parse`'s error cases. -/
def parseURL (raw : String) : Option URLParts :=
  if strContains raw " " then none
  else
    match splitStr raw "://" with
    | [] => some ⟨"", "", ""⟩
    | [rel] => some ⟨"", "", stripQF rel⟩
    | scheme :: after0 :: rest =>
      let hostAndPath := stripQF (joinWith "://" (after0 :: rest))
      match splitStr hostAndPath "/" with
      | [] => some ⟨scheme, "", ""⟩
      | [host] => some ⟨scheme, host, ""⟩
      | host :: p => some ⟨scheme, host, "/" ++ joinWith "/" p⟩

/-- `parsed.String()` after `normalizeProfileURL` cleared the query and
fragment: scheme, host and path reassembled. -/
def urlString (u : URLParts) : String :=
  if u.scheme == "" && u.host == "" then u.path
  else u.scheme ++ "://" ++ u.host ++ u.path

/-- Go `strings.TrimSuffix path "/"`: drops one trailing slash. -/
def trimTrailingSlash (s : String) : String := trimSuffixStr s "/"

/-- Embeds `normalizeProfileURL` (src/navigation/patterns.go lines
520–559): empty and unparsable inputs map to `""`; non-LinkedIn hosts
map to `""` unless the raw string is a relative `/in/…` reference, which
is made absolute after cutting at `?`; LinkedIn URLs are cut down to
`https://www.linkedin.com/in/<profileID>` when the path contains `/in/`,
and otherwise reserialised with query and fragment removed. -/
def normalizeProfileURL (rawURL : String) : String :=
  if rawURL == "" then ""
  else
    match parseURL rawURL with
    | none => ""
    | some parsed =>
      if strContains parsed.host "linkedin.com" = false then
        if hasPrefixStr rawURL "/in/" then
          "https://www.linkedin.com" ++ ((splitStr rawURL "?").headD "")
        else ""
      else
        let path := trimTrailingSlash parsed.path
        if strContains path "/in/" then
          match splitStr path "/in/" with
          | _ :: second :: _ => "https://www.linkedin.com/in/" ++ ((splitStr second "/").headD "")
          | _ => urlString parsed
        else urlString parsed

/-- The de-duplication pass of the `FindPeople` page loop
(src/navigation/patterns.go lines 290–306): each extracted URL is
normalised; empty normalisations and already-seen targets are skipped,
new targets are added to the seen set and collected. -/
def collectNew (seen acc : List String) : List String → List String × List String
  | [] => (seen, acc)
  | p :: rest =>
    let normalized := normalizeProfileURL p
    if normalized == "" then collectNew seen acc rest
    else if seen.contains normalized then collectNew seen acc rest
    else collectNew (seen ++ [normalized]) (acc ++ [normalized]) rest

/-- The observable outcome of `FindPeople`: collected profiles, the
updated seen set, and how many result pages were processed. -/
structure SearchOutcome where
  allProfiles : List String
  seen : List String
  pagesProcessed : Nat
deriving Repr, DecidableEq

/-- Embeds the `for currentPage <= maxPages` pagination loop of
`FindPeople` (src/navigation/patterns.go lines 278–351).

* `extract i` is the result of `extractProfileURLs` on page `i`
  (`none` = error, which makes `FindPeople` return the error);
* `hasNext i` is `hasNextPage` on page `i`; both its `false` result and
  its error result break the loop in the source, so they are conflated;
* `nextOk i` is whether `clickNextPage` succeeded; its failure also
  breaks the loop.

`fuel` is the number of pages the `currentPage ≤ maxPages` guard still
admits, so the loop runs at most `fuel` iterations. -/
def findLoop (extract : Nat → Option (List String)) (hasNext nextOk : Nat → Bool) :
    Nat → Nat → List String → List String → Nat → Except String SearchOutcome
  | 0, _, seen, acc, processed => .ok ⟨acc, seen, processed⟩
  | fuel + 1, pageNo, seen, acc, processed =>
    match extract pageNo with
    | none => .error ("extract profiles on page " ++ toString pageNo)
    | some profiles =>
      let s2 := collectNew seen acc profiles
      if hasNext pageNo then
        if nextOk pageNo then
          findLoop extract hasNext nextOk fuel (pageNo + 1) s2.1 s2.2 (processed + 1)
        else .ok ⟨s2.2, s2.1, processed + 1⟩
      else .ok ⟨s2.2, s2.1, processed + 1⟩

/-- Embeds `FindPeople` (src/navigation/patterns.go lines 219–364)
starting after the search-box phase: `MaxPages == 0` is replaced by the
default cap 10 (lines 273–276), then the pagination loop runs from page
1.  `seen0` is the seen set loaded by `loadSeenProfiles`. -/
def FindPeople (maxPagesParam : Int) (extract : Nat → Option (List String))
    (hasNext nextOk : Nat → Bool) (seen0 : List String) : Except String SearchOutcome :=
  let maxPages : Int := if maxPagesParam == 0 then 10 else maxPagesParam
  findLoop extract hasNext nextOk maxPages.toNat 1 seen0 [] 0

end Search

/-! ## Helper lemmas about the campaign engine loop -/

namespace Connect

theorem contains_false_of_not_mem {l : List String} {p : String} (h : p ∉ l) :
    l.contains p = false := by simpa using h

theorem contains_true_of_mem {l : List String} {p : String} (h : p ∈ l) :
    l.contains p = true := by simpa using h

theorem mapKeys_setKey_of_not_mem {m : List (String × String)} {k : String} (v : String)
    (h : k ∉ mapKeys m) : mapKeys (setKey m k v) = mapKeys m ++ [k] := by
  unfold setKey
  rw [contains_false_of_not_mem h]
  simp [mapKeys]

theorem mem_setKey_self (m : List (String × String)) (k v : String) :
    (k, v) ∈ setKey m k v := by
  unfold setKey
  by_cases h : k ∈ mapKeys m
  · rw [contains_true_of_mem h]
    obtain ⟨q, hq, hqk⟩ := List.exists_of_mem_map h
    refine List.mem_map.mpr ⟨q, hq, ?_⟩
    simp [hqk]
  · rw [contains_false_of_not_mem h]
    simp

theorem sendLoop_nil (maxPerDay : Int) (step : String → Option String) (ts : String)
    (saveOk : String → Bool) (o : SendOutcome) :
    sendLoop maxPerDay step ts saveOk [] o = o := rfl

theorem sendLoop_date (maxPerDay : Int) (step : String → Option String) (ts : String)
    (saveOk : String → Bool) :
    ∀ (profiles : List String) (o : SendOutcome),
      (sendLoop maxPerDay step ts saveOk profiles o).state.date = o.state.date := by
  intro profiles
  induction profiles with
  | nil => intro o; rfl
  | cons p rest ih =>
    intro o
    simp only [sendLoop]
    by_cases hq : o.state.requestsSentToday ≥ maxPerDay
    · rw [if_pos hq]
    · rw [if_neg hq]
      by_cases hd : o.state.attemptedProfiles.contains p = true
      · rw [if_pos hd, ih]
      · rw [if_neg hd]
        cases hs : step p <;> simp only [hs] <;> rw [ih]

theorem sendLoop_count_mono (maxPerDay : Int) (step : String → Option String) (ts : String)
    (saveOk : String → Bool) :
    ∀ (profiles : List String) (o : SendOutcome),
      o.state.requestsSentToday
        ≤ (sendLoop maxPerDay step ts saveOk profiles o).state.requestsSentToday := by
  intro profiles
  induction profiles with
  | nil => intro o; exact le_refl _
  | cons p rest ih =>
    intro o
    simp only [sendLoop]
    by_cases hq : o.state.requestsSentToday ≥ maxPerDay
    · rw [if_pos hq]
    · rw [if_neg hq]
      by_cases hd : o.state.attemptedProfiles.contains p = true
      · rw [if_pos hd]; exact ih _
      · rw [if_neg hd]
        cases hs : step p
        · simp only [hs]
          refine le_trans ?_ (ih _)
          show o.state.requestsSentToday ≤ o.state.requestsSentToday + 1
          omega
        · simp only [hs]
          exact ih _

theorem sendLoop_mem_attempted_mono (maxPerDay : Int) (step : String → Option String)
    (ts : String) (saveOk : String → Bool) :
    ∀ (profiles : List String) (o : SendOutcome) (q : String),
      q ∈ o.state.attemptedProfiles →
      q ∈ (sendLoop maxPerDay step ts saveOk profiles o).state.attemptedProfiles := by
  intro profiles
  induction profiles with
  | nil => intro o q hq; exact hq
  | cons p rest ih =>
    intro o q hq
    simp only [sendLoop]
    by_cases hqq : o.state.requestsSentToday ≥ maxPerDay
    · rw [if_pos hqq]; exact hq
    · rw [if_neg hqq]
      by_cases hd : o.state.attemptedProfiles.contains p = true
      · rw [if_pos hd]; exact ih _ q hq
      · rw [if_neg hd]
        cases hs : step p <;> simp only [hs] <;>
          exact ih _ q (by simp [hq])

theorem sendLoop_attempted_complete (maxPerDay : Int) (step : String → Option String)
    (ts : String) (saveOk : String → Bool) :
    ∀ (profiles : List String) (o : SendOutcome),
      (sendLoop maxPerDay step ts saveOk profiles o).state.requestsSentToday < maxPerDay →
      ∀ p ∈ profiles,
        p ∈ (sendLoop maxPerDay step ts saveOk profiles o).state.attemptedProfiles := by
  intro profiles
  induction profiles with
  | nil => intro o _ p hp; exact absurd hp (List.not_mem_nil p)
  | cons q rest ih =>
    intro o hlt p hp
    simp only [sendLoop] at hlt ⊢
    by_cases hquota : o.state.requestsSentToday ≥ maxPerDay
    · rw [if_pos hquota] at hlt
      exact absurd hquota (not_le.mpr hlt)
    · rw [if_neg hquota] at hlt ⊢
      by_cases hdq : o.state.attemptedProfiles.contains q = true
      · rw [if_pos hdq] at hlt ⊢
        rcases List.mem_cons.mp hp with h | h
        · subst h
          exact sendLoop_mem_attempted_mono _ _ _ _ _ _ p (by simpa using hdq)
        · exact ih _ hlt p h
      · rw [if_neg hdq] at hlt ⊢
        rcases List.mem_cons.mp hp with h | h
        · subst h
          cases hs : step p <;> simp only [hs] at hlt ⊢ <;>
            exact sendLoop_mem_attempted_mono _ _ _ _ _ _ p (by simp)
        · cases hs : step q <;> simp only [hs] at hlt ⊢ <;> exact ih _ hlt p h

theorem sendLoop_skip_all (maxPerDay : Int) (step : String → Option String)
    (ts : String) (saveOk : String → Bool) :
    ∀ (profiles : List String) (o : SendOutcome),
      (∀ p ∈ profiles, p ∈ o.state.attemptedProfiles) →
      o.state.requestsSentToday < maxPerDay →
      sendLoop maxPerDay step ts saveOk profiles o
        = { o with skipCount := o.skipCount + profiles.length } := by
  intro profiles
  induction profiles with
  | nil => intro o _ _; simp [sendLoop]
  | cons p rest ih =>
    intro o hmem hlt
    simp only [sendLoop]
    rw [if_neg (by omega)]
    rw [if_pos (contains_true_of_mem (hmem p (by simp)))]
    rw [ih { o with skipCount := o.skipCount + 1 }
      (fun q hq => hmem q (by simp [hq])) hlt]
    simp only [List.length_cons]
    congr 1
    omega

theorem sendLoop_cons_quota (maxPerDay : Int) (step : String → Option String)
    (ts : String) (saveOk : String → Bool) (p : String) (rest : List String)
    (o : SendOutcome) (h : o.state.requestsSentToday ≥ maxPerDay) :
    sendLoop maxPerDay step ts saveOk (p :: rest) o = o := by
  simp only [sendLoop]
  rw [if_pos h]

theorem sendLoop_cons_dup (maxPerDay : Int) (step : String → Option String)
    (ts : String) (saveOk : String → Bool) (p : String) (rest : List String)
    (o : SendOutcome) (h : ¬ o.state.requestsSentToday ≥ maxPerDay)
    (hd : p ∈ o.state.attemptedProfiles) :
    sendLoop maxPerDay step ts saveOk (p :: rest) o
      = sendLoop maxPerDay step ts saveOk rest { o with skipCount := o.skipCount + 1 } := by
  simp only [sendLoop]
  rw [if_neg h, if_pos (contains_true_of_mem hd)]

theorem sendLoop_cons_success (maxPerDay : Int) (step : String → Option String)
    (ts : String) (saveOk : String → Bool) (p : String) (rest : List String)
    (o : SendOutcome) (h : ¬ o.state.requestsSentToday ≥ maxPerDay)
    (hd : p ∉ o.state.attemptedProfiles) (hs : step p = none) :
    sendLoop maxPerDay step ts saveOk (p :: rest) o
      = sendLoop maxPerDay step ts saveOk rest (procSuccess o p ts saveOk) := by
  simp only [sendLoop]
  rw [if_neg h, if_neg (by rw [contains_false_of_not_mem hd]; exact Bool.false_ne_true), hs]
  rfl

theorem sendLoop_cons_failure (maxPerDay : Int) (step : String → Option String)
    (ts : String) (saveOk : String → Bool) (p e : String) (rest : List String)
    (o : SendOutcome) (h : ¬ o.state.requestsSentToday ≥ maxPerDay)
    (hd : p ∉ o.state.attemptedProfiles) (hs : step p = some e) :
    sendLoop maxPerDay step ts saveOk (p :: rest) o
      = sendLoop maxPerDay step ts saveOk rest (procFailure o p e saveOk) := by
  simp only [sendLoop]
  rw [if_neg h, if_neg (by rw [contains_false_of_not_mem hd]; exact Bool.false_ne_true), hs]
  rfl

theorem sendLoop_all_success (maxPerDay : Int) (step : String → Option String)
    (ts : String) (saveOk : String → Bool) :
    ∀ (profiles : List String) (o : SendOutcome),
      (∀ p ∈ profiles, step p = none) → profiles.Nodup →
      (∀ p ∈ profiles, p ∉ o.state.attemptedProfiles) →
      o.state.requestsSentToday ≤ maxPerDay →
      ∀ n, n = min profiles.length (maxPerDay - o.state.requestsSentToday).toNat →
        (sendLoop maxPerDay step ts saveOk profiles o).state.requestsSentToday
            = o.state.requestsSentToday + n ∧
        (sendLoop maxPerDay step ts saveOk profiles o).stepTrace
            = o.stepTrace ++ profiles.take n ∧
        (sendLoop maxPerDay step ts saveOk profiles o).state.attemptedProfiles
            = o.state.attemptedProfiles ++ profiles.take n ∧
        (sendLoop maxPerDay step ts saveOk profiles o).successCount = o.successCount + n := by
  intro profiles
  induction profiles with
  | nil =>
    intro o _ _ _ _ n hn
    have hn0 : n = 0 := by simpa using hn
    subst hn0
    simp [sendLoop]
  | cons p rest ih =>
    intro o hstep hnd hfresh hle n hn
    by_cases hquota : o.state.requestsSentToday ≥ maxPerDay
    · rw [sendLoop_cons_quota _ _ _ _ _ _ _ hquota]
      have hn0 : n = 0 := by omega
      subst hn0
      simp
    · have hfr : p ∉ o.state.attemptedProfiles := hfresh p (List.mem_cons_self p rest)
      rw [sendLoop_cons_success _ _ _ _ _ _ _ hquota hfr (hstep p (List.mem_cons_self p rest))]
      have hcount : o.state.requestsSentToday < maxPerDay := lt_of_not_ge hquota
      obtain ⟨h1, h2, h3, h4⟩ := ih (procSuccess o p ts saveOk)
        (fun q hq => hstep q (List.mem_cons_of_mem p hq))
        (List.Nodup.of_cons hnd)
        (fun q hq hmem => by
          simp only [procSuccess] at hmem
          rcases List.mem_append.mp hmem with hmem | hmem
          · exact hfresh q (List.mem_cons_of_mem p hq) hmem
          · have : q = p := by simpa using hmem
            exact (List.nodup_cons.mp hnd).1 (this ▸ hq))
        (by show o.state.requestsSentToday + 1 ≤ maxPerDay; omega)
        _ rfl
      simp only [procSuccess] at h1 h2 h3 h4 ⊢
      simp only [List.length_cons] at hn
      have hnn : n = min rest.length
          (maxPerDay - (o.state.requestsSentToday + 1)).toNat + 1 := by
        omega
      refine ⟨?_, ?_, ?_, ?_⟩
      · rw [h1]
        omega
      · rw [h2, hnn, List.take_succ_cons]
        simp
      · rw [h3, hnn, List.take_succ_cons]
        simp
      · rw [h4, hnn]
        omega

/-- C6: Invariant preserved by every step of the campaign engine (any
starting outcome `o`, any target list): any target in the succeeded map
is also in the attempted set, the succeeded keys stay duplicate-free,
and the step function is invoked only on targets that were not yet
attempted, each at most once (the newly traced targets are pairwise
distinct and disjoint from the initial attempted set). -/
theorem succeeded_subset_attempted (maxPerDay : Int) (step : String → Option String)
    (ts : String) (saveOk : String → Bool) :
    ∀ (profiles : List String) (o : SendOutcome),
      (∀ q ∈ mapKeys o.state.successfulSends, q ∈ o.state.attemptedProfiles) →
      (mapKeys o.state.successfulSends).Nodup →
      (∀ q ∈ mapKeys (sendLoop maxPerDay step ts saveOk profiles o).state.successfulSends,
          q ∈ (sendLoop maxPerDay step ts saveOk profiles o).state.attemptedProfiles) ∧
      (mapKeys (sendLoop maxPerDay step ts saveOk profiles o).state.successfulSends).Nodup ∧
      ∃ t, (sendLoop maxPerDay step ts saveOk profiles o).stepTrace = o.stepTrace ++ t ∧
        t.Nodup ∧ ∀ q ∈ t, q ∉ o.state.attemptedProfiles := by
  intro profiles
  induction profiles with
  | nil =>
    intro o hsub hnd
    exact ⟨hsub, hnd, [], by simp [sendLoop], List.nodup_nil, by simp⟩
  | cons p rest ih =>
    intro o hsub hnd
    by_cases hquota : o.state.requestsSentToday ≥ maxPerDay
    · rw [sendLoop_cons_quota _ _ _ _ _ _ _ hquota]
      exact ⟨hsub, hnd, [], by simp, List.nodup_nil, by simp⟩
    · by_cases hdup : p ∈ o.state.attemptedProfiles
      · rw [sendLoop_cons_dup _ _ _ _ _ _ _ hquota hdup]
        exact ih { o with skipCount := o.skipCount + 1 } hsub hnd
      · cases hs : step p with
        | none =>
          rw [sendLoop_cons_success _ _ _ _ _ _ _ hquota hdup hs]
          have hpk : p ∉ mapKeys o.state.successfulSends := fun hk => hdup (hsub p hk)
          have hkeys : mapKeys (procSuccess o p ts saveOk).state.successfulSends
              = mapKeys o.state.successfulSends ++ [p] := mapKeys_setKey_of_not_mem ts hpk
          obtain ⟨A, B, t, htr, htnd, htni⟩ := ih (procSuccess o p ts saveOk)
            (fun q hq => by
              rw [hkeys] at hq
              show q ∈ o.state.attemptedProfiles ++ [p]
              rcases List.mem_append.mp hq with hq | hq
              · exact List.mem_append.mpr (Or.inl (hsub q hq))
              · exact List.mem_append.mpr (Or.inr hq))
            (by
              rw [hkeys]
              refine List.Nodup.append hnd (List.nodup_singleton p) ?_
              intro q hq hq2
              exact hpk ((List.mem_singleton.mp hq2) ▸ hq))
          refine ⟨A, B, p :: t, ?_, ?_, ?_⟩
          · rw [htr]
            show _ = o.stepTrace ++ ([p] ++ t)
            rw [← List.append_assoc]
            rfl
          · refine List.nodup_cons.mpr ⟨fun hpt => ?_, htnd⟩
            exact htni p hpt (by show p ∈ o.state.attemptedProfiles ++ [p]; simp)
          · intro q hq
            rcases List.mem_cons.mp hq with hq | hq
            · exact hq ▸ hdup
            · intro hmem
              exact htni q hq (by show q ∈ o.state.attemptedProfiles ++ [p]; simp [hmem])
        | some e =>
          rw [sendLoop_cons_failure _ _ _ _ _ _ _ _ hquota hdup hs]
          obtain ⟨A, B, t, htr, htnd, htni⟩ := ih (procFailure o p e saveOk)
            (fun q hq => by
              show q ∈ o.state.attemptedProfiles ++ [p]
              exact List.mem_append.mpr (Or.inl (hsub q hq)))
            hnd
          refine ⟨A, B, p :: t, ?_, ?_, ?_⟩
          · rw [htr]
            show _ = o.stepTrace ++ ([p] ++ t)
            rw [← List.append_assoc]
            rfl
          · refine List.nodup_cons.mpr ⟨fun hpt => ?_, htnd⟩
            exact htni p hpt (by show p ∈ o.state.attemptedProfiles ++ [p]; simp)
          · intro q hq
            rcases List.mem_cons.mp hq with hq | hq
            · exact hq ▸ hdup
            · intro hmem
              exact htni q hq (by show q ∈ o.state.attemptedProfiles ++ [p]; simp [hmem])

theorem sendLoop_eraseStored (maxPerDay : Int) (step : String → Option String)
    (ts : String) (saveOk1 saveOk2 : String → Bool) :
    ∀ (profiles : List String) (s : ConnectionState) (st1 st2 : Option ConnectionState)
      (sc sk ec : Nat) (tr : List String),
      eraseStored (sendLoop maxPerDay step ts saveOk1 profiles ⟨s, st1, sc, sk, ec, tr⟩)
        = eraseStored (sendLoop maxPerDay step ts saveOk2 profiles ⟨s, st2, sc, sk, ec, tr⟩) := by
  intro profiles
  induction profiles with
  | nil => intro s st1 st2 sc sk ec tr; rfl
  | cons p rest ih =>
    intro s st1 st2 sc sk ec tr
    by_cases hq : s.requestsSentToday ≥ maxPerDay
    · rw [sendLoop_cons_quota _ _ _ _ _ _ _ hq, sendLoop_cons_quota _ _ _ _ _ _ _ hq]
      rfl
    · by_cases hd : p ∈ s.attemptedProfiles
      · rw [sendLoop_cons_dup _ _ _ _ _ _ _ hq hd, sendLoop_cons_dup _ _ _ _ _ _ _ hq hd]
        exact ih s st1 st2 sc (sk + 1) ec tr
      · cases hs : step p with
        | none =>
          rw [sendLoop_cons_success _ _ _ _ _ _ _ hq hd hs,
            sendLoop_cons_success _ _ _ _ _ _ _ hq hd hs]
          exact ih _ _ _ _ _ _ _
        | some e =>
          rw [sendLoop_cons_failure _ _ _ _ _ _ _ _ hq hd hs,
            sendLoop_cons_failure _ _ _ _ _ _ _ _ hq hd hs]
          exact ih _ _ _ _ _ _ _

/-- C1: With daily quota `N`, a state whose counter is 0 for today, and a
list of at least `N` pairwise-distinct, not-previously-attempted targets
whose step always succeeds, the run succeeds on exactly the first `N`
targets (`countToday = N` afterwards), and every target after the `N`-th
is stopped by the quota check before being attempted: it is not added to
the attempted set and its step is never invoked. -/
theorem quota_boundary (today ts : String) (N : Nat) (hN : 0 < N)
    (step : String → Option String) (saveOk : String → Bool)
    (profiles : List String) (s0 : ConnectionState) (stored0 : Option ConnectionState)
    (hdate : s0.date = today) (hcount : s0.requestsSentToday = 0)
    (hnodup : profiles.Nodup)
    (hfresh : ∀ p ∈ profiles, p ∉ s0.attemptedProfiles)
    (hstep : ∀ p ∈ profiles, step p = none)
    (hlen : N ≤ profiles.length) :
    ∃ out, SendRequests today ts (N : Int) step saveOk profiles s0 stored0 = .ok out ∧
      out.state.requestsSentToday = (N : Int) ∧
      out.successCount = N ∧
      out.stepTrace = profiles.take N ∧
      out.state.attemptedProfiles = s0.attemptedProfiles ++ profiles.take N ∧
      ∀ p ∈ profiles.drop N, p ∉ out.state.attemptedProfiles ∧ p ∉ out.stepTrace := by
  have hne : profiles ≠ [] := by
    intro h
    rw [h] at hlen
    simp at hlen
    omega
  have hbeq : (s0.date == today) = true := by simp [hdate]
  unfold SendRequests
  rw [if_neg (by simpa using hne), hbeq]
  simp only [if_true]
  rw [if_neg (by rw [hcount]; omega)]
  obtain ⟨h1, h2, h3, h4⟩ := sendLoop_all_success (N : Int) step ts saveOk profiles
    ⟨s0, stored0, 0, 0, 0, []⟩ hstep hnodup hfresh
    (by show s0.requestsSentToday ≤ (N : Int); omega) N
    (by show N = min profiles.length ((N : Int) - s0.requestsSentToday).toNat; omega)
  refine ⟨_, rfl, ?_, ?_, ?_, ?_, ?_⟩
  · rw [h1]
    show s0.requestsSentToday + (N : Int) = (N : Int)
    omega
  · rw [h4]
    show 0 + N = N
    omega
  · rw [h2]
    show [] ++ profiles.take N = profiles.take N
    simp
  · rw [h3]
  · intro p hp
    have hdisj : ∀ a ∈ profiles.take N, a ∉ profiles.drop N := by
      have hnd2 : (profiles.take N ++ profiles.drop N).Nodup := by
        rw [List.take_append_drop]
        exact hnodup
      exact (List.nodup_append.mp hnd2).2.2
    have hpt : p ∉ profiles.take N := fun ht => hdisj p ht hp
    have hpf : p ∉ s0.attemptedProfiles :=
      hfresh p (List.mem_of_mem_drop hp)
    constructor
    · rw [h3]
      show p ∉ s0.attemptedProfiles ++ profiles.take N
      intro hmem
      rcases List.mem_append.mp hmem with hmem | hmem
      · exact hpf hmem
      · exact hpt hmem
    · rw [h2]
      show p ∉ [] ++ profiles.take N
      simpa using hpt

/-- Witness for C1 at a concrete input: quota 2, three fresh targets. -/
theorem quota_boundary_witness :
    ∃ out, SendRequests "d" "t" ((2 : Nat) : Int) (fun _ => none) (fun _ => true)
        ["a", "b", "c"] (newConnectionState "d") none = .ok out ∧
      out.state.requestsSentToday = ((2 : Nat) : Int) ∧
      out.successCount = 2 ∧
      out.stepTrace = ["a", "b", "c"].take 2 ∧
      out.state.attemptedProfiles
        = (newConnectionState "d").attemptedProfiles ++ ["a", "b", "c"].take 2 ∧
      ∀ p ∈ ["a", "b", "c"].drop 2, p ∉ out.state.attemptedProfiles ∧ p ∉ out.stepTrace :=
  quota_boundary "d" "t" 2 (by omega) (fun _ => none) (fun _ => true)
    ["a", "b", "c"] (newConnectionState "d") none rfl rfl (by decide)
    (fun p _ => by simp [newConnectionState]) (fun p _ => rfl) (by simp)

/-- C3 counterexample: with the counter already at the quota for today,
`SendRequests` returns the error `daily connection limit reached: 5/5` —
an error return, not the normal non-error return the claim asserts. -/
theorem entry_quota_counterexample :
    SendRequests "2026-10-11" "t" 5 (fun _ => none) (fun _ => true) ["p"]
        { date := "2026-10-11", requestsSentToday := 5, attemptedProfiles := [],
          successfulSends := [], failedAttempts := [] } none
      = .error "daily connection limit reached: 5/5" := by rfl

/-- C3 (amended): if `countToday ≥ quota` when the run is entered on a
same-day state with a nonempty target list, the run stops with no
targets attempted and no state written, but it reports quota exhaustion
as an **error** return (`daily connection limit reached: X/N`), not as a
normal non-error return; only the mid-run quota stop is non-error. -/
theorem entry_quota_error (today ts : String) (maxPerDay : Int)
    (step : String → Option String) (saveOk : String → Bool)
    (profiles : List String) (s0 : ConnectionState) (stored0 : Option ConnectionState)
    (hne : profiles ≠ []) (hdate : s0.date = today)
    (h : s0.requestsSentToday ≥ maxPerDay) :
    SendRequests today ts maxPerDay step saveOk profiles s0 stored0
      = .error (limitMsg s0.requestsSentToday maxPerDay) := by
  have hbeq : (s0.date == today) = true := by simp [hdate]
  unfold SendRequests
  rw [if_neg (by simpa using hne), hbeq]
  simp only [if_true]
  rw [if_pos h]

/-- Witness for the amended C3 at a concrete input. -/
theorem entry_quota_error_witness :
    SendRequests "d" "t" 5 (fun _ => none) (fun _ => true) ["p"]
        { date := "d", requestsSentToday := 7, attemptedProfiles := [],
          successfulSends := [], failedAttempts := [] } none
      = .error (limitMsg 7 5) :=
  entry_quota_error "d" "t" 5 (fun _ => none) (fun _ => true) ["p"]
    { date := "d", requestsSentToday := 7, attemptedProfiles := [],
      successfulSends := [], failedAttempts := [] } none
    (by simp) rfl (by show (7 : Int) ≥ 5; omega)

/-- C4 counterexample: with a state store whose every save fails, the run
does **not** abort and does not propagate any error: both targets are
still processed (`stepTrace = [p1, p2]`), the run returns `ok`, and only
the persisted snapshot (`stored`) is left stale. -/
theorem save_failure_counterexample :
    SendRequests "d" "t" 5 (fun _ => none) (fun _ => false) ["p1", "p2"]
        (newConnectionState "d") none
      = .ok { state := { date := "d", requestsSentToday := 2,
                           attemptedProfiles := ["p1", "p2"],
                           successfulSends := [("p1", "t"), ("p2", "t")],
                           failedAttempts := [] },
              stored := none, successCount := 2, skipCount := 0, errorCount := 0,
              stepTrace := ["p1", "p2"] } := by rfl

/-- C4 (amended): a failure of `saveConnectionState` after a target's
outcome is known is logged and ignored: the run's control flow, final
in-memory state, counters, step trace and ok/error status are identical
under any pattern of save failures — only the persisted snapshot
(`stored`) can differ.  In particular the run neither aborts nor
propagates the storage error. -/
theorem save_failure_ignored (today ts : String) (maxPerDay : Int)
    (step : String → Option String) (saveOk1 saveOk2 : String → Bool)
    (profiles : List String) (s0 : ConnectionState) (stored0 : Option ConnectionState) :
    (SendRequests today ts maxPerDay step saveOk1 profiles s0 stored0).map eraseStored
      = (SendRequests today ts maxPerDay step saveOk2 profiles s0 stored0).map eraseStored := by
  unfold SendRequests
  by_cases he : profiles.isEmpty = true
  · rw [if_pos he, if_pos he]
  · rw [if_neg he, if_neg he]
    by_cases hq : (if s0.date == today then s0
        else { s0 with date := today, requestsSentToday := 0 }).requestsSentToday ≥ maxPerDay
    · rw [if_pos hq, if_pos hq]
    · rw [if_neg hq, if_neg hq]
      simp only [Except.map]
      exact congrArg Except.ok
        (sendLoop_eraseStored maxPerDay step ts saveOk1 saveOk2 profiles _ stored0 stored0
          0 0 0 [])

/-- C5 counterexample: quota 1, targets `[p1, p2]`, fresh same-day state.
The first run succeeds on `p1` and stops at the quota before touching
`p2`.  Replaying on the prior run's output does **not** skip every
target as a duplicate: the replay returns the quota error at entry
without examining any target, and `p2` was never in `attempted`. -/
theorem replay_counterexample :
    (SendRequests "d" "t" 1 (fun _ => none) (fun _ => true) ["p1", "p2"]
        (newConnectionState "d") none
      = .ok { state := { date := "d", requestsSentToday := 1,
                           attemptedProfiles := ["p1"],
                           successfulSends := [("p1", "t")],
                           failedAttempts := [] },
              stored := some { date := "d", requestsSentToday := 1,
                                 attemptedProfiles := ["p1"],
                                 successfulSends := [("p1", "t")],
                                 failedAttempts := [] },
              successCount := 1, skipCount := 0, errorCount := 0,
              stepTrace := ["p1"] }) ∧
    (SendRequests "d" "t2" 1 (fun _ => none) (fun _ => true) ["p1", "p2"]
        { date := "d", requestsSentToday := 1, attemptedProfiles := ["p1"],
          successfulSends := [("p1", "t")], failedAttempts := [] }
        (some { date := "d", requestsSentToday := 1, attemptedProfiles := ["p1"],
                  successfulSends := [("p1", "t")], failedAttempts := [] })
      = .error "daily connection limit reached: 1/1") ∧
    "p2" ∉ ["p1"] := by
  refine ⟨rfl, rfl, ?_⟩
  decide

/-- C5 (amended): replaying `run` on the same day with an unchanged
target list on the prior run's output state produces zero newly
succeeded targets and leaves the state (hence `countToday`, `succeeded`
and `failed`) unchanged.  When the prior count is still below quota,
every target is skipped as a duplicate (`skipCount` = list length); when
the prior run reached the quota, the replay instead stops at entry with
the quota **error**, examining no target. -/
theorem replay_idempotent (today ts ts2 : String) (maxPerDay : Int)
    (step step2 : String → Option String) (saveOk saveOk2 : String → Bool)
    (profiles : List String) (s0 : ConnectionState) (stored0 st1 : Option ConnectionState)
    (out1 : SendOutcome)
    (h : SendRequests today ts maxPerDay step saveOk profiles s0 stored0 = .ok out1) :
    (∃ e, SendRequests today ts2 maxPerDay step2 saveOk2 profiles out1.state st1
        = .error e) ∨
    SendRequests today ts2 maxPerDay step2 saveOk2 profiles out1.state st1
      = .ok { state := out1.state, stored := st1, successCount := 0,
              skipCount := profiles.length, errorCount := 0, stepTrace := [] } := by
  by_cases he : profiles.isEmpty = true
  · right
    have hpe : profiles = [] := by simpa using he
    subst hpe
    unfold SendRequests at h ⊢
    rw [if_pos he] at h ⊢
    injection h with h2
    rw [← h2]
    rfl
  · unfold SendRequests at h
    rw [if_neg he] at h
    by_cases hq : (if s0.date == today then s0
        else { s0 with date := today, requestsSentToday := 0 }).requestsSentToday ≥ maxPerDay
    · rw [if_pos hq] at h
      exact absurd h (by simp)
    · rw [if_neg hq] at h
      injection h with h2
      have hs1date : (if s0.date == today then s0
          else { s0 with date := today, requestsSentToday := 0 }).date = today := by
        by_cases hb : (s0.date == today) = true
        · rw [if_pos hb]
          exact eq_of_beq hb
        · rw [if_neg hb]
      have hd1 : out1.state.date = today := by
        rw [← h2, sendLoop_date]
        exact hs1date
      have hbeq2 : (out1.state.date == today) = true := by simp [hd1]
      unfold SendRequests
      rw [if_neg he, hbeq2]
      simp only [if_true]
      by_cases hq2 : out1.state.requestsSentToday ≥ maxPerDay
      · rw [if_pos hq2]
        exact Or.inl ⟨_, rfl⟩
      · rw [if_neg hq2]
        right
        have hlt : out1.state.requestsSentToday < maxPerDay := lt_of_not_ge hq2
        have hltL : (sendLoop maxPerDay step ts saveOk profiles
            ⟨(if s0.date == today then s0
              else { s0 with date := today, requestsSentToday := 0 }), stored0, 0, 0, 0, []⟩
            ).state.requestsSentToday < maxPerDay := by
          rw [h2]
          exact hlt
        have hmem : ∀ p ∈ profiles, p ∈ out1.state.attemptedProfiles := by
          intro p hp
          rw [← h2]
          exact sendLoop_attempted_complete _ _ _ _ profiles _ hltL p hp
        rw [sendLoop_skip_all maxPerDay step2 ts2 saveOk2 profiles
          ⟨out1.state, st1, 0, 0, 0, []⟩ hmem hlt]
        simp

/-- Witness for the amended C5 at a concrete input: quota 5, one target,
first run from a fresh state, replay on its output. -/
theorem replay_idempotent_witness :
    (∃ e, SendRequests "d" "t2" 5 (fun _ => none) (fun _ => true) ["p1"]
        (SendOutcome.state { state := { date := "d", requestsSentToday := 1,
                                          attemptedProfiles := ["p1"],
                                          successfulSends := [("p1", "t")],
                                          failedAttempts := [] },
                             stored := some { date := "d", requestsSentToday := 1,
                                                attemptedProfiles := ["p1"],
                                                successfulSends := [("p1", "t")],
                                                failedAttempts := [] },
                             successCount := 1, skipCount := 0, errorCount := 0,
                             stepTrace := ["p1"] }) none = .error e) ∨
    SendRequests "d" "t2" 5 (fun _ => none) (fun _ => true) ["p1"]
        (SendOutcome.state { state := { date := "d", requestsSentToday := 1,
                                          attemptedProfiles := ["p1"],
                                          successfulSends := [("p1", "t")],
                                          failedAttempts := [] },
                             stored := some { date := "d", requestsSentToday := 1,
                                                attemptedProfiles := ["p1"],
                                                successfulSends := [("p1", "t")],
                                                failedAttempts := [] },
                             successCount := 1, skipCount := 0, errorCount := 0,
                             stepTrace := ["p1"] }) none
      = .ok { state := SendOutcome.state
                { state := { date := "d", requestsSentToday := 1,
                               attemptedProfiles := ["p1"],
                               successfulSends := [("p1", "t")],
                               failedAttempts := [] },
                  stored := some { date := "d", requestsSentToday := 1,
                                     attemptedProfiles := ["p1"],
                                     successfulSends := [("p1", "t")],
                                     failedAttempts := [] },
                  successCount := 1, skipCount := 0, errorCount := 0,
                  stepTrace := ["p1"] },
              stored := none, successCount := 0, skipCount := ["p1"].length,
              errorCount := 0, stepTrace := [] } :=
  replay_idempotent "d" "t" "t2" 5 (fun _ => none) (fun _ => none)
    (fun _ => true) (fun _ => true) ["p1"] (newConnectionState "d") none none _ rfl

/-- C2 counterexample: on a page with no Connect control but a Following
indicator, the locator does return the distinct `connect unavailable`
outcome, but the engine records the target into the **failed** map
(`failedAttempts`, `errorCount = 1`) — it has no SkippedIneligible
outcome, contradicting the claim that such a target is not recorded into
the failed map. -/
theorem ineligible_counterexample :
    (findConnectButton (fun sel =>
        if sel == "button:has-text('Following')" then some ⟨some "Following", none⟩
        else none)
      = .error "connect unavailable: already following") ∧
    (SendRequests "d" "t" 5
        (fun _ => stepOfLocator (fun sel =>
          if sel == "button:has-text('Following')" then some ⟨some "Following", none⟩
          else none))
        (fun _ => true) ["p"] (newConnectionState "d") none
      = .ok { state := { date := "d", requestsSentToday := 0,
                           attemptedProfiles := ["p"],
                           successfulSends := [],
                           failedAttempts := [("p",
                             "find connect button: connect unavailable: already following")] },
              stored := some { date := "d", requestsSentToday := 0,
                                 attemptedProfiles := ["p"],
                                 successfulSends := [],
                                 failedAttempts := [("p",
                                   "find connect button: connect unavailable: already following")] },
              successCount := 0, skipCount := 0, errorCount := 1,
              stepTrace := ["p"] }) :=
  ⟨rfl, rfl⟩

/-- C2 (amended): when no Connect selector yields a semantically
validated element and the Following indicator is present, the locator
returns the distinct `connect unavailable: already following` outcome
rather than the plain not-found message; the engine, however, has no
SkippedIneligible outcome: it records the target into the **failed** map
with the error detail, counting it as an error. -/
theorem ineligible_recorded_as_failed (page : Page) (e : Elem)
    (hmiss : firstConnect page connectSelectors = none)
    (hind : page "button:has-text('Following')" = some e)
    (today ts : String) (maxPerDay : Int) (saveOk : String → Bool)
    (p : String) (s0 : ConnectionState) (stored0 : Option ConnectionState)
    (hdate : s0.date = today) (hq : s0.requestsSentToday < maxPerDay)
    (hfresh : p ∉ s0.attemptedProfiles) :
    findConnectButton page = .error "connect unavailable: already following" ∧
    "connect unavailable: already following" ≠ notFoundMsg ∧
    ∃ out, SendRequests today ts maxPerDay (fun _ => stepOfLocator page) saveOk [p] s0 stored0
        = .ok out ∧
      (p, "find connect button: connect unavailable: already following")
        ∈ out.state.failedAttempts ∧
      out.errorCount = 1 ∧ out.successCount = 0 := by
  have hun : firstUnavailable page unavailableReasons = some "already following" := by
    simp only [unavailableReasons, firstUnavailable, hind]
  have hfind : findConnectButton page = .error "connect unavailable: already following" := by
    simp only [findConnectButton, hmiss, hun]
    rfl
  refine ⟨hfind, by decide, ?_⟩
  have hstep : stepOfLocator page
      = some "find connect button: connect unavailable: already following" := by
    simp only [stepOfLocator, hfind]
    rfl
  have hbeq : (s0.date == today) = true := by simp [hdate]
  unfold SendRequests
  rw [if_neg (by simp), hbeq]
  simp only [if_true]
  rw [if_neg (by omega)]
  rw [sendLoop_cons_failure maxPerDay (fun _ => stepOfLocator page) ts saveOk p
    "find connect button: connect unavailable: already following" []
    ⟨s0, stored0, 0, 0, 0, []⟩ (by show ¬ s0.requestsSentToday ≥ maxPerDay; omega)
    hfresh hstep]
  refine ⟨_, rfl, ?_, rfl, rfl⟩
  show (p, "find connect button: connect unavailable: already following")
    ∈ setKey s0.failedAttempts p "find connect button: connect unavailable: already following"
  exact mem_setKey_self _ _ _

/-- Witness for the amended C2 at a concrete page and state. -/
theorem ineligible_recorded_as_failed_witness :
    findConnectButton (fun sel =>
        if sel == "button:has-text('Following')" then some ⟨some "Following", none⟩
        else none)
      = .error "connect unavailable: already following" ∧
    "connect unavailable: already following" ≠ notFoundMsg ∧
    ∃ out, SendRequests "d" "t" 5
        (fun _ => stepOfLocator (fun sel =>
          if sel == "button:has-text('Following')" then some ⟨some "Following", none⟩
          else none))
        (fun _ => true) ["p"] (newConnectionState "d") none
        = .ok out ∧
      ("p", "find connect button: connect unavailable: already following")
        ∈ out.state.failedAttempts ∧
      out.errorCount = 1 ∧ out.successCount = 0 :=
  ineligible_recorded_as_failed
    (fun sel => if sel == "button:has-text('Following')" then some ⟨some "Following", none⟩
      else none)
    ⟨some "Following", none⟩ rfl rfl "d" "t" 5 (fun _ => true) "p"
    (newConnectionState "d") none rfl (by show (0 : Int) < 5; omega)
    (by simp [newConnectionState])

end Connect

namespace Stealth

theorem MoveMouseHuman_getLast (rnd : MouseRand) (fromX fromY toX toY : Int) :
    (MoveMouseHuman rnd fromX fromY toX toY).getLast?
      = if (toX - fromX) * (toX - fromX) + (toY - fromY) * (toY - fromY) < 4 then
          some ((toX : ℚ), (toY : ℚ))
        else
          some (((if rnd.overshoots then toX + rnd.odx else toX : Int) : ℚ),
                ((if rnd.overshoots then toY + rnd.ody else toY : Int) : ℚ)) := by
  unfold MoveMouseHuman
  by_cases h : (toX - fromX) * (toX - fromX) + (toY - fromY) * (toY - fromY) < 4
  · rw [if_pos h, if_pos h]
    rfl
  · rw [if_neg h, if_neg h]
    exact List.getLast?_concat _

theorem MoveMouseHuman_ne_nil (rnd : MouseRand) (fromX fromY toX toY : Int) :
    MoveMouseHuman rnd fromX fromY toX toY ≠ [] := by
  intro hnil
  have h := MoveMouseHuman_getLast rnd fromX fromY toX toY
  rw [hnil] at h
  by_cases hc : (toX - fromX) * (toX - fromX) + (toY - fromY) * (toY - fromY) < 4 <;>
    simp [hc] at h

/-- C7 (code bug): the generated path is never empty and a `from = to`
call emits a single direct move, but when the overshoot draw fires the
path's final emitted position is the **overshot** point, not the
requested target: at `from = (0,0)`, `to = (100,0)` with overshoot
offset `(14,0)`, the final `MoveTo` goes to `(114,0) ≠ (100,0)`.  The
offset is added to `toX`/`toY` before both the curve and the final
correction (src/stealth/mouse.go lines 46–50 and 82), so the pull-back
onto the exact target promised by the claim — and by the code's own
comments "Optional overshoot then correct back to target" and "Correct
to exact target" — never happens.  Without overshoot the endpoint is
exact. -/
theorem mouse_overshoot_endpoint_bug :
    MoveMouseHuman ⟨true, 14, 0, 0, 0, 0, 0, fun _ => 0, fun _ => 0⟩ 0 0 100 0 ≠ [] ∧
    (MoveMouseHuman ⟨true, 14, 0, 0, 0, 0, 0, fun _ => 0, fun _ => 0⟩ 0 0 100 0).getLast?
      = some ((114 : ℚ), (0 : ℚ)) ∧
    (MoveMouseHuman ⟨true, 14, 0, 0, 0, 0, 0, fun _ => 0, fun _ => 0⟩ 0 0 100 0).getLast?
      ≠ some ((100 : ℚ), (0 : ℚ)) ∧
    (MoveMouseHuman ⟨false, 14, 0, 0, 0, 0, 0, fun _ => 0, fun _ => 0⟩ 0 0 100 0).getLast?
      = some ((100 : ℚ), (0 : ℚ)) ∧
    MoveMouseHuman ⟨true, 14, 0, 0, 0, 0, 0, fun _ => 0, fun _ => 0⟩ 5 5 5 5
      = [((5 : ℚ), (5 : ℚ))] := by
  have h1 := MoveMouseHuman_getLast ⟨true, 14, 0, 0, 0, 0, 0, fun _ => 0, fun _ => 0⟩ 0 0 100 0
  have h2 := MoveMouseHuman_getLast ⟨false, 14, 0, 0, 0, 0, 0, fun _ => 0, fun _ => 0⟩ 0 0 100 0
  norm_num at h1 h2
  refine ⟨MoveMouseHuman_ne_nil _ _ _ _ _, h1, ?_, h2, ?_⟩
  · rw [h1]
    intro hcontra
    rw [Option.some.injEq, Prod.mk.injEq] at hcontra
    norm_num at hcontra
  · unfold MoveMouseHuman
    norm_num

end Stealth

/-- C8: for any integer inputs and any random draw, both delay
generators clamp the minimum to 0 and the maximum up to the minimum and
return a value inside the clamped interval `[clampMin, clampMax]`; for
`0 ≤ minMs ≤ maxMs` the result therefore lies in `[minMs, maxMs]`.  The
randomness modulus (the argument of `r.Intn`, respectively the `%`
divisor) is always positive, so neither generator can panic. -/
theorem delay_bounds (u nano : Nat) (minMs maxMs : Int) :
    0 < Stealth.clampMax minMs maxMs - Stealth.clampMin minMs + 1 ∧
    Stealth.clampMin minMs ≤ Stealth.RandomDelay u minMs maxMs ∧
    Stealth.RandomDelay u minMs maxMs ≤ Stealth.clampMax minMs maxMs ∧
    Stealth.clampMin minMs ≤ Navigation.RandomDelay nano minMs maxMs ∧
    Navigation.RandomDelay nano minMs maxMs ≤ Stealth.clampMax minMs maxMs ∧
    (0 ≤ minMs → minMs ≤ maxMs →
      minMs ≤ Stealth.RandomDelay u minMs maxMs ∧
      Stealth.RandomDelay u minMs maxMs ≤ maxMs ∧
      minMs ≤ Navigation.RandomDelay nano minMs maxMs ∧
      Navigation.RandomDelay nano minMs maxMs ≤ maxMs) := by
  have h1 : 0 ≤ Stealth.clampMin minMs := by
    unfold Stealth.clampMin
    split <;> omega
  have h2 : Stealth.clampMin minMs ≤ Stealth.clampMax minMs maxMs := by
    unfold Stealth.clampMax
    split <;> omega
  have hspan : (Stealth.clampMax minMs maxMs - Stealth.clampMin minMs + 1).toNat ≠ 0 := by
    omega
  have hmodS : u % (Stealth.clampMax minMs maxMs - Stealth.clampMin minMs + 1).toNat
      < (Stealth.clampMax minMs maxMs - Stealth.clampMin minMs + 1).toNat :=
    Nat.mod_lt _ (Nat.pos_of_ne_zero hspan)
  have hmodN : nano % (Stealth.clampMax minMs maxMs - Stealth.clampMin minMs + 1).toNat
      < (Stealth.clampMax minMs maxMs - Stealth.clampMin minMs + 1).toNat :=
    Nat.mod_lt _ (Nat.pos_of_ne_zero hspan)
  have hvS : Stealth.RandomDelay u minMs maxMs
      = ((u % (Stealth.clampMax minMs maxMs - Stealth.clampMin minMs + 1).toNat : Nat) : Int)
        + Stealth.clampMin minMs := rfl
  have hvN : Navigation.RandomDelay nano minMs maxMs
      = Stealth.clampMin minMs
        + ((nano % (Stealth.clampMax minMs maxMs - Stealth.clampMin minMs + 1).toNat : Nat)
          : Int) := rfl
  have hminEq : 0 ≤ minMs → Stealth.clampMin minMs = minMs := by
    intro h0
    unfold Stealth.clampMin
    split <;> omega
  have hmaxEq : 0 ≤ minMs → minMs ≤ maxMs → Stealth.clampMax minMs maxMs = maxMs := by
    intro h0 hmm
    unfold Stealth.clampMax Stealth.clampMin
    split_ifs <;> omega
  refine ⟨by omega, by omega, by omega, by omega, by omega, fun h0 hmm => ?_⟩
  have e1 := hminEq h0
  have e2 := hmaxEq h0 hmm
  refine ⟨by omega, by omega, by omega, by omega⟩

/-- Witness for C8 at a concrete input: draws 7 and 3, bounds 200–500. -/
theorem delay_bounds_witness :
    200 ≤ Stealth.RandomDelay 7 200 500 ∧ Stealth.RandomDelay 7 200 500 ≤ 500 ∧
    200 ≤ Navigation.RandomDelay 3 200 500 ∧ Navigation.RandomDelay 3 200 500 ≤ 500 :=
  (delay_bounds 7 3 200 500).2.2.2.2.2 (by omega) (by omega)

namespace Search

theorem collectNew_stale (seen acc : List String) :
    ∀ ps, (∀ p ∈ ps, normalizeProfileURL p = "" ∨ normalizeProfileURL p ∈ seen) →
      collectNew seen acc ps = (seen, acc) := by
  intro ps
  induction ps with
  | nil => intro _; rfl
  | cons p rest ih =>
    intro hps
    have hp := hps p (List.mem_cons_self p rest)
    simp only [collectNew]
    by_cases hnb : (normalizeProfileURL p == "") = true
    · rw [if_pos hnb]
      exact ih (fun q hq => hps q (List.mem_cons_of_mem p hq))
    · rw [if_neg hnb]
      have hmem : normalizeProfileURL p ∈ seen := by
        rcases hp with h | h
        · exact absurd (by rw [h]; rfl) hnb
        · exact h
      rw [if_pos (Connect.contains_true_of_mem hmem)]
      exact ih (fun q hq => hps q (List.mem_cons_of_mem p hq))

theorem findLoop_all_stale (extract : Nat → Option (List String)) (seen0 : List String)
    (hex : ∀ i, ∃ ps, extract i = some ps ∧
      ∀ p ∈ ps, normalizeProfileURL p = "" ∨ normalizeProfileURL p ∈ seen0) :
    ∀ (fuel pageNo : Nat) (acc : List String) (processed : Nat),
      findLoop extract (fun _ => true) (fun _ => true) fuel pageNo seen0 acc processed
        = .ok ⟨acc, seen0, processed + fuel⟩ := by
  intro fuel
  induction fuel with
  | zero => intro pageNo acc processed; rfl
  | succ fuel ih =>
    intro pageNo acc processed
    obtain ⟨ps, hps, hstale⟩ := hex pageNo
    simp only [findLoop, hps, collectNew_stale seen0 acc ps hstale, if_true]
    rw [ih (pageNo + 1) acc (processed + 1)]
    have harith : processed + 1 + fuel = processed + (fuel + 1) := by omega
    rw [harith]

/-- C9 counterexample: page 1 yields `alice`, page 2 yields `alice`
again (zero new candidates), page 3 yields `bob`; the pagination control
disappears after page 3.  The loop does **not** stop after the zero-new
page 2: it processes page 3 and collects `bob`
(`pagesProcessed = 3`), contradicting the claimed early stop.  The
second conjunct checks that page 2's candidate list indeed contributes
zero new targets to the seen set. -/
theorem zero_new_page_counterexample :
    (FindPeople 5 (fun n => if n == 1 then some ["https://www.linkedin.com/in/alice"]
        else if n == 2 then some ["https://www.linkedin.com/in/alice"]
        else if n == 3 then some ["https://www.linkedin.com/in/bob"] else none)
      (fun n => n == 1 || n == 2) (fun _ => true) []
      = .ok { allProfiles := ["https://www.linkedin.com/in/alice",
                                "https://www.linkedin.com/in/bob"],
              seen := ["https://www.linkedin.com/in/alice",
                         "https://www.linkedin.com/in/bob"],
              pagesProcessed := 3 }) ∧
    collectNew ["https://www.linkedin.com/in/alice"] ["https://www.linkedin.com/in/alice"]
        ["https://www.linkedin.com/in/alice"]
      = (["https://www.linkedin.com/in/alice"], ["https://www.linkedin.com/in/alice"]) :=
  ⟨rfl, rfl⟩

/-- C9 (amended): the pagination loop stops only when extraction errors,
the pagination control is absent (or checking/clicking it fails), or the
page cap is reached.  A page that yields zero new candidates does
**not** stop it: with every page's candidates already seen or invalid
(zero new on every page) and pagination always available, the loop still
processes the full page cap and collects nothing new. -/
theorem zero_new_pages_do_not_stop (extract : Nat → Option (List String))
    (seen0 : List String) (mp : Int)
    (hex : ∀ i, ∃ ps, extract i = some ps ∧
      ∀ p ∈ ps, normalizeProfileURL p = "" ∨ normalizeProfileURL p ∈ seen0) :
    FindPeople mp extract (fun _ => true) (fun _ => true) seen0
      = .ok ⟨[], seen0, (if mp == 0 then (10 : Int) else mp).toNat⟩ := by
  unfold FindPeople
  rw [findLoop_all_stale extract seen0 hex _ 1 [] 0]
  have harith : 0 + (if mp == 0 then (10 : Int) else mp).toNat
      = (if mp == 0 then (10 : Int) else mp).toNat := by omega
  rw [harith]

/-- Witness for the amended C9: cap 3, every page yields an already-seen
target; the loop still processes all 3 pages. -/
theorem zero_new_pages_do_not_stop_witness :
    FindPeople 3 (fun _ => some ["https://www.linkedin.com/in/alice"]) (fun _ => true)
        (fun _ => true) ["https://www.linkedin.com/in/alice"]
      = .ok ⟨[], ["https://www.linkedin.com/in/alice"],
             (if (3 : Int) == 0 then (10 : Int) else 3).toNat⟩ :=
  zero_new_pages_do_not_stop (fun _ => some ["https://www.linkedin.com/in/alice"])
    ["https://www.linkedin.com/in/alice"] 3
    (fun i => ⟨["https://www.linkedin.com/in/alice"], rfl, by
      intro p hp
      right
      have hp2 : p = "https://www.linkedin.com/in/alice" := by simpa using hp
      subst hp2
      decide⟩)

theorem findLoop_pages_le (extract : Nat → Option (List String))
    (hasNext nextOk : Nat → Bool) :
    ∀ (fuel pageNo : Nat) (seen acc : List String) (processed : Nat) (out : SearchOutcome),
      findLoop extract hasNext nextOk fuel pageNo seen acc processed = .ok out →
      out.pagesProcessed ≤ processed + fuel := by
  intro fuel
  induction fuel with
  | zero =>
    intro pageNo seen acc processed out h
    injection h with h2
    rw [← h2]
    show processed ≤ processed + 0
    omega
  | succ fuel ih =>
    intro pageNo seen acc processed out h
    rcases hex : extract pageNo with _ | ps
    · simp only [findLoop, hex] at h
      exact Except.noConfusion h
    · simp only [findLoop, hex] at h
      by_cases hn : hasNext pageNo = true
      · rw [if_pos hn] at h
        by_cases hk : nextOk pageNo = true
        · rw [if_pos hk] at h
          have := ih (pageNo + 1) _ _ (processed + 1) out h
          omega
        · rw [if_neg hk] at h
          injection h with h2
          rw [← h2]
          show processed + 1 ≤ processed + (fuel + 1)
          omega
      · rw [if_neg hn] at h
        injection h with h2
        rw [← h2]
        show processed + 1 ≤ processed + (fuel + 1)
        omega

/-- C10: with `MaxPages = 0`, the discovery loop processes at most 10
result pages: the zero value is silently replaced by the default cap 10
(patterns.go lines 273–276), not treated as "no limit" as the
`SearchParams.MaxPages` comment suggests. -/
theorem maxpages_zero_caps_at_ten (extract : Nat → Option (List String))
    (hasNext nextOk : Nat → Bool) (seen0 : List String) (out : SearchOutcome)
    (h : FindPeople 0 extract hasNext nextOk seen0 = .ok out) :
    out.pagesProcessed ≤ 10 := by
  simp only [FindPeople] at h
  have h10 : (if (0 : Int) == 0 then (10 : Int) else 0).toNat = 10 := rfl
  rw [h10] at h
  have := findLoop_pages_le extract hasNext nextOk 10 1 seen0 [] 0 out h
  omega

/-- Witness for C10: a run that reaches the default cap exactly. -/
theorem maxpages_zero_caps_at_ten_witness :
    ({ allProfiles := [], seen := [], pagesProcessed := 10 } : SearchOutcome).pagesProcessed
      ≤ 10 :=
  maxpages_zero_caps_at_ten (fun _ => some []) (fun _ => true) (fun _ => true) []
    { allProfiles := [], seen := [], pagesProcessed := 10 } rfl

end Search

namespace Connect

/-- Witness for C6 at a concrete input: one fresh target, quota 2. -/
theorem succeeded_subset_attempted_witness :
    (∀ q ∈ mapKeys (sendLoop 2 (fun _ => none) "t" (fun _ => true) ["a"]
          ⟨newConnectionState "d", none, 0, 0, 0, []⟩).state.successfulSends,
        q ∈ (sendLoop 2 (fun _ => none) "t" (fun _ => true) ["a"]
          ⟨newConnectionState "d", none, 0, 0, 0, []⟩).state.attemptedProfiles) ∧
    (mapKeys (sendLoop 2 (fun _ => none) "t" (fun _ => true) ["a"]
        ⟨newConnectionState "d", none, 0, 0, 0, []⟩).state.successfulSends).Nodup ∧
    ∃ t, (sendLoop 2 (fun _ => none) "t" (fun _ => true) ["a"]
          ⟨newConnectionState "d", none, 0, 0, 0, []⟩).stepTrace
        = (⟨newConnectionState "d", none, 0, 0, 0, []⟩ : SendOutcome).stepTrace ++ t ∧
      t.Nodup ∧
      ∀ q ∈ t, q ∉ (⟨newConnectionState "d", none, 0, 0, 0, []⟩ : SendOutcome
        ).state.attemptedProfiles :=
  succeeded_subset_attempted 2 (fun _ => none) "t" (fun _ => true) ["a"]
    ⟨newConnectionState "d", none, 0, 0, 0, []⟩
    (fun q hq => absurd hq (List.not_mem_nil q)) List.nodup_nil

end Connect
